import Mathlib

/-!
Verification of the donation-attribution core of the `datacor` repository
(`main.go`, package `donationsbystudent`).

Modelling conventions:
* Go strings are `String`; Go `float64` money amounts are modelled as exact
  rationals `ℚ` (the spec states its money claims modulo floating-point
  epsilon, and every concrete value used below is exactly representable).
* The Go map `AllStudents = map[string]Student` is an association list with
  key-based lookup and key-based store (replace when the key is present,
  append otherwise); iteration order of the map is never relied upon by the
  modelled code paths.
* `strconv.ParseFloat(s, 64)` is modelled on its finite decimal fragment
  (optional sign, decimal mantissa with an optional point, optional decimal
  exponent); the hex-float, `inf`/`nan`, digit-group-underscore and
  out-of-float64-range forms are outside every input exercised here.
-/

set_option allowUnsafeReducibility true in
attribute [semireducible] Rat.mul Rat.add Rat.sub Rat.inv Rat.ofScientific

namespace Datacor

/-- Go struct `Student` (`main.go`). Field defaults are Go's zero values. -/
structure Student where
  Name : String := ""
  Grade : String := ""
  Class : String := ""
  Parent1 : String := ""
  Parent2 : String := ""
  Parent3 : String := ""
  PrimaryDonor1 : String := ""
  PrimaryDonor2 : String := ""
  PrimaryDonor3 : String := ""
  PrimaryDonorsPerStudent : Int := 0
  PrimaryDonor1DonationAmount : ℚ := 0
  PrimaryDonor2DonationAmount : ℚ := 0
  PrimaryDonor3DonationAmount : ℚ := 0
  TotalDonationAmount : ℚ := 0
deriving DecidableEq, Repr

/-- Go struct `Parent` (`main.go`). -/
structure Parent where
  Name : String := ""
  Children : List Student := []
  AccountNumber : String := ""
deriving DecidableEq, Repr

/-- Go struct `DonationTransation` (`main.go`; the source spells it without the
second `c`). Field defaults are Go's zero values. -/
structure DonationTransation where
  Date : String := ""
  Name : String := ""
  Amount : String := ""
  FirstStudentName : String := ""
  FirstStudentClass : String := ""
  SecondStudentName : String := ""
  SecondStudentClass : String := ""
  ThirdStudentName : String := ""
  ThirdStudentClass : String := ""
  AccountNumber : String := ""
deriving DecidableEq, Repr

/-- Go `type AllStudents map[string]Student`, as an association list. -/
abbrev AllStudents := List (String × Student)

/-- Go map read `students[k]` with its `ok` flag. -/
def mapLookup (m : AllStudents) (k : String) : Option Student :=
  match m with
  | [] => none
  | (k₁, v₁) :: rest => if k₁ = k then some v₁ else mapLookup rest k

/-- Go map write `students[k] = v`: replace the binding when the key is
present, append a new binding otherwise. -/
def mapStore (m : AllStudents) (k : String) (v : Student) : AllStudents :=
  match m with
  | [] => [(k, v)]
  | (k₁, v₁) :: rest => if k₁ = k then (k, v) :: rest else (k₁, v₁) :: mapStore rest k v

/-- The key set of the roster map. -/
def mapKeys (m : AllStudents) : List String :=
  m.map Prod.fst

/-- Go `strings.TrimPrefix(amount, "$")` for the one-character pattern `"$"`:
drop a leading `$` when present, return the string unchanged otherwise. -/
def trimDollarSign (s : String) : String :=
  match s.data with
  | '$' :: rest => String.mk rest
  | _ => s

/-- ASCII decimal digit test, as in Go's number scanner. -/
def isDigitChar (c : Char) : Bool :=
  '0' ≤ c && c ≤ '9'

/-- Numeric value of a decimal digit character. -/
def digitVal (c : Char) : Nat :=
  c.toNat - '0'.toNat

/-- Value of a decimal digit string read most-significant first. -/
def digitsToNat (ds : List Char) : Nat :=
  ds.foldl (fun a c => 10 * a + digitVal c) 0

/-- Split a character list at the first character satisfying `p`: returns the
part before it and, when found, the part after it (the separator dropped). -/
def splitAtFirst (p : Char → Bool) : List Char → List Char × Option (List Char)
  | [] => ([], none)
  | c :: cs =>
    if p c then ([], some cs)
    else
      let r := splitAtFirst p cs
      (c :: r.1, r.2)

/-- Decimal mantissa of Go's `ParseFloat` syntax: digits with at most one
point and at least one digit overall. `none` on a syntax error (so a comma,
as in `"1,234.56"`, is rejected exactly as `strconv.ParseFloat` rejects it). -/
def parseMantissa (cs : List Char) : Option ℚ :=
  let s := splitAtFirst (fun c => c = '.') cs
  match s.2 with
  | none =>
    if !s.1.isEmpty && s.1.all isDigitChar then
      some (digitsToNat s.1 : ℚ)
    else none
  | some fracPart =>
    if (!s.1.isEmpty || !fracPart.isEmpty) && s.1.all isDigitChar
        && fracPart.all isDigitChar then
      some ((digitsToNat s.1 : ℚ) + (digitsToNat fracPart : ℚ) / (10 : ℚ) ^ fracPart.length)
    else none

/-- Decimal exponent part (after `e`/`E`) of Go's `ParseFloat` syntax. -/
def parseExponentPart (cs : List Char) : Option Int :=
  match cs with
  | [] => none
  | '+' :: ds =>
    if !ds.isEmpty && ds.all isDigitChar then some (digitsToNat ds : Int) else none
  | '-' :: ds =>
    if !ds.isEmpty && ds.all isDigitChar then some (-(digitsToNat ds : Int)) else none
  | ds =>
    if ds.all isDigitChar then some (digitsToNat ds : Int) else none

/-- Model of Go `strconv.ParseFloat(s, 64)` on its finite decimal fragment:
`some` of the exact value on success, `none` on a syntax error. -/
def goParseFloat (s : String) : Option ℚ :=
  let signSplit : ℚ × List Char :=
    match s.data with
    | '+' :: rest => (1, rest)
    | '-' :: rest => (-1, rest)
    | rest => (1, rest)
  let body := splitAtFirst (fun c => c = 'e' || c = 'E') signSplit.2
  match body.2 with
  | none => (parseMantissa body.1).map (fun v => signSplit.1 * v)
  | some expPart =>
    match parseMantissa body.1, parseExponentPart expPart with
    | some v, some e => some (signSplit.1 * v * (10 : ℚ) ^ e)
    | _, _ => none

/-- Go `parseDollarAmount` (`main.go` lines 527-537): trim a leading `$`,
parse with `strconv.ParseFloat`, and return `0` on any parse error. -/
def parseDollarAmount (amount : String) : ℚ :=
  let cleanedAmount := trimDollarSign amount
  match goParseFloat cleanedAmount with
  | some value => value
  | none => 0

/-- The donor-slot `switch` of `assignDonationsToStudents` (`main.go` lines
488-504): the cases are evaluated top to bottom and the first match wins. -/
def updateDonorSlots (txnName : String) (share : ℚ) (student : Student) : Student :=
  if student.PrimaryDonor1 = txnName then
    { student with PrimaryDonor1DonationAmount := student.PrimaryDonor1DonationAmount + share }
  else if student.PrimaryDonor2 = txnName then
    { student with PrimaryDonor2DonationAmount := student.PrimaryDonor2DonationAmount + share }
  else if student.PrimaryDonor3 = txnName then
    { student with PrimaryDonor3DonationAmount := student.PrimaryDonor3DonationAmount + share }
  else if student.PrimaryDonor1 = "" then
    { student with PrimaryDonor1 := txnName, PrimaryDonor1DonationAmount := share }
  else if student.PrimaryDonor2 = "" then
    { student with PrimaryDonor2 := txnName, PrimaryDonor2DonationAmount := share }
  else if student.PrimaryDonor3 = "" then
    { student with PrimaryDonor3 := txnName, PrimaryDonor3DonationAmount := share }
  else student

/-- The donor-count recomputation of `assignDonationsToStudents` (`main.go`
lines 506-516): reset to `0`, then one increment per non-empty slot. -/
def recountPrimaryDonors (student : Student) : Student :=
  let n : Int := 0
  let n := if student.PrimaryDonor1 ≠ "" then n + 1 else n
  let n := if student.PrimaryDonor2 ≠ "" then n + 1 else n
  let n := if student.PrimaryDonor3 ≠ "" then n + 1 else n
  { student with PrimaryDonorsPerStudent := n }

/-- The per-beneficiary update body of `assignDonationsToStudents` (`main.go`
lines 484-516): add the share to the running total, resolve the donor slot,
then recompute the donor count from scratch. -/
def updateStudentForDonation (txnName : String) (share : ℚ) (student : Student) : Student :=
  recountPrimaryDonors (updateDonorSlots txnName share
    { student with TotalDonationAmount := student.TotalDonationAmount + share })

/-- One iteration of the sibling loop of `assignDonationsToStudents`
(`main.go` lines 477-519): skip a name absent from the roster, otherwise
update the student and write it back into the map. -/
def processSibling (txnName : String) (share : ℚ) (students : AllStudents)
    (sibling : String) : AllStudents :=
  match mapLookup students sibling with
  | none => students
  | some student => mapStore students sibling (updateStudentForDonation txnName share student)

/-- The beneficiary list of a transaction (`main.go` lines 459-465): the three
student-name fields with the empty ones dropped. -/
def validSiblings (txn : DonationTransation) : List String :=
  [txn.FirstStudentName, txn.SecondStudentName, txn.ThirdStudentName].filter (fun s => s ≠ "")

/-- One iteration of the transaction loop of `assignDonationsToStudents`
(`main.go` lines 458-520). -/
def processTransaction (students : AllStudents) (txn : DonationTransation) : AllStudents :=
  let vs := validSiblings txn
  if vs.length = 0 then students
  else
    let donationPerStudent := parseDollarAmount txn.Amount / (vs.length : ℚ)
    vs.foldl (processSibling txn.Name donationPerStudent) students

/-- Go `assignDonationsToStudents` (`main.go` lines 456-523). -/
def assignDonationsToStudents (students : AllStudents)
    (donations : List DonationTransation) : AllStudents :=
  donations.foldl processTransaction students

/-- Go `addParent` (`main.go` lines 563-575): write the caregiver name into
the first empty one of the three fixed slots, dropping it when all are full. -/
def addParent (student : Student) (parentName : String) : Student :=
  if student.Parent1 = "" then { student with Parent1 := parentName }
  else if student.Parent2 = "" then { student with Parent2 := parentName }
  else if student.Parent3 = "" then { student with Parent3 := parentName }
  else student

/-- The body of the inner child loop of `makeStudentRows` (`main.go` lines
549-557): merge the caregiver into an existing roster entry, or insert the
child with the caregiver recorded. -/
def addChildRow (parentName : String) (students : AllStudents) (child : Student) : AllStudents :=
  match mapLookup students child.Name with
  | some existingChild => mapStore students child.Name (addParent existingChild parentName)
  | none => mapStore students child.Name (addParent child parentName)

/-- One iteration of the parent loop of `makeStudentRows`. -/
def addParentRow (students : AllStudents) (parent : Parent) : AllStudents :=
  parent.Children.foldl (addChildRow parent.Name) students

/-- Go `makeStudentRows` (`main.go` lines 539-561), with the parent records
(the output of the spreadsheet reader `getParents`) passed in as a list. -/
def makeStudentRows (parents : List Parent) : AllStudents :=
  parents.foldl addParentRow []

/-- Go `strings.ReplaceAll(s, " ", "")`. -/
def removeSpaces (s : String) : String :=
  String.mk (s.data.filter (fun c => c ≠ ' '))

/-- Go `readTransactionsByNonCareGivers` (`main.go` lines 721-771), with the
spreadsheet rows passed in as lists of cells (the modelled rows are assumed
rectangular with at least 13 columns, as `row[i]` indexing requires in Go):
skip the header and total rows (indices 0 and 1), keep exactly the rows whose
three student-name columns are all empty, and preserve date, donor name,
space-stripped amount and account number. -/
def readTransactionsByNonCareGivers (rows : List (List String)) : List DonationTransation :=
  rows.enum.filterMap (fun p =>
    if p.1 = 0 ∨ p.1 = 1 then none
    else if p.2.getD 6 "" ≠ "" then none
    else if p.2.getD 8 "" ≠ "" then none
    else if p.2.getD 10 "" ≠ "" then none
    else some { Date := p.2.getD 0 "", Name := p.2.getD 1 "",
                Amount := removeSpaces (p.2.getD 2 ""), AccountNumber := p.2.getD 12 "" })

/-! ### Helper views used by the statements -/

/-- The three donor-name slots of a student, in slot order. -/
def donorNameSlots (s : Student) : List String :=
  [s.PrimaryDonor1, s.PrimaryDonor2, s.PrimaryDonor3]

/-! ### C1: donor-slot priority and idempotence -/

/-- C1: the donor-slot `switch` of `assignDonationsToStudents` resolves the
slot by a fixed priority evaluated top to bottom with first match winning
(`updateDonorSlots` is that switch, translated case for case). Consequently,
processing the same donor name against the same student twice accumulates
into the same slot and never creates a duplicate slot: two consecutive
updates by donor `d` with shares `a` and `b` equal one update with share
`a + b`, the second update changes no donor-name slot, and after an update
the donor occupies at most one slot (at most its prior occupancy, or one
freshly filled slot). -/
theorem donor_slot_priority_idempotent (s : Student) (d : String) (a b : ℚ) :
    updateDonorSlots d b (updateDonorSlots d a s) = updateDonorSlots d (a + b) s ∧
    donorNameSlots (updateDonorSlots d b (updateDonorSlots d a s)) =
      donorNameSlots (updateDonorSlots d a s) ∧
    (donorNameSlots (updateDonorSlots d a s)).count d ≤
      max ((donorNameSlots s).count d) 1 := by
  by_cases h1 : s.PrimaryDonor1 = d <;>
    by_cases h2 : s.PrimaryDonor2 = d <;>
      by_cases h3 : s.PrimaryDonor3 = d <;>
        by_cases e1 : s.PrimaryDonor1 = "" <;>
          by_cases e2 : s.PrimaryDonor2 = "" <;>
            by_cases e3 : s.PrimaryDonor3 = "" <;>
              refine ⟨?_, ?_, ?_⟩ <;>
                simp_all [updateDonorSlots, donorNameSlots, Student.mk.injEq,
                  add_assoc, List.count_cons]

/-! ### Map lemmas -/

theorem mapLookup_mapStore_self (m : AllStudents) (k : String) (v : Student) :
    mapLookup (mapStore m k v) k = some v := by
  induction m with
  | nil => simp [mapStore, mapLookup]
  | cons p rest ih =>
    obtain ⟨k₁, v₁⟩ := p
    by_cases h : k₁ = k <;> simp [mapStore, mapLookup, h, ih]

theorem mapLookup_mapStore_ne (m : AllStudents) (k x : String) (v : Student)
    (h : k ≠ x) : mapLookup (mapStore m k v) x = mapLookup m x := by
  induction m with
  | nil => simp [mapStore, mapLookup, h]
  | cons p rest ih =>
    obtain ⟨k₁, v₁⟩ := p
    by_cases hk : k₁ = k
    · subst hk; simp [mapStore, mapLookup, h]
    · simp [mapStore, mapLookup, hk, ih]

theorem mapKeys_mapStore_of_isSome (m : AllStudents) (k : String) (v : Student)
    (h : (mapLookup m k).isSome) : mapKeys (mapStore m k v) = mapKeys m := by
  induction m with
  | nil => simp [mapLookup] at h
  | cons p rest ih =>
    obtain ⟨k₁, v₁⟩ := p
    by_cases hk : k₁ = k
    · subst hk; simp [mapStore, mapKeys]
    · simp [mapLookup, hk] at h
      simp [mapStore, mapKeys, hk] at ih ⊢
      exact ih h

theorem mapLookup_processSibling_self (tn : String) (sh : ℚ) (m : AllStudents)
    (sib : String) :
    mapLookup (processSibling tn sh m sib) sib =
      (mapLookup m sib).map (updateStudentForDonation tn sh) := by
  cases h : mapLookup m sib <;>
    simp [processSibling, h, mapLookup_mapStore_self]

theorem mapLookup_processSibling_ne (tn : String) (sh : ℚ) (m : AllStudents)
    (sib x : String) (h : sib ≠ x) :
    mapLookup (processSibling tn sh m sib) x = mapLookup m x := by
  cases hl : mapLookup m sib <;>
    simp [processSibling, hl, mapLookup_mapStore_ne _ _ _ _ h]

theorem mapKeys_processSibling (tn : String) (sh : ℚ) (m : AllStudents)
    (sib : String) : mapKeys (processSibling tn sh m sib) = mapKeys m := by
  cases hl : mapLookup m sib
  · simp [processSibling, hl]
  · simp only [processSibling, hl]
    exact mapKeys_mapStore_of_isSome m sib _ (by simp [hl])

/-! ### Per-student update lemmas -/

theorem total_recountPrimaryDonors (s : Student) :
    (recountPrimaryDonors s).TotalDonationAmount = s.TotalDonationAmount := rfl

theorem total_updateDonorSlots (tn : String) (sh : ℚ) (s : Student) :
    (updateDonorSlots tn sh s).TotalDonationAmount = s.TotalDonationAmount := by
  unfold updateDonorSlots
  split_ifs <;> rfl

theorem total_updateStudentForDonation (tn : String) (sh : ℚ) (s : Student) :
    (updateStudentForDonation tn sh s).TotalDonationAmount =
      s.TotalDonationAmount + sh := by
  unfold updateStudentForDonation
  rw [total_recountPrimaryDonors, total_updateDonorSlots]

/-- The running total of the student stored under `name`, `0` when absent. -/
def totalDonationOf (m : AllStudents) (name : String) : ℚ :=
  match mapLookup m name with
  | some s => s.TotalDonationAmount
  | none => 0

theorem isSome_processSibling (tn : String) (sh : ℚ) (m : AllStudents)
    (sib x : String) (h : (mapLookup m x).isSome) :
    (mapLookup (processSibling tn sh m sib) x).isSome := by
  by_cases hxy : sib = x
  · subst hxy
    rw [mapLookup_processSibling_self]
    cases hl : mapLookup m sib
    · rw [hl] at h; simp at h
    · simp
  · rw [mapLookup_processSibling_ne _ _ _ _ _ hxy]; exact h

theorem totalDonationOf_processSibling (tn : String) (sh : ℚ) (m : AllStudents)
    (sib x : String) (h : (mapLookup m x).isSome) :
    totalDonationOf (processSibling tn sh m sib) x =
      totalDonationOf m x + (if x = sib then sh else 0) := by
  by_cases hxy : sib = x
  · subst hxy
    cases hl : mapLookup m sib
    · rw [hl] at h; simp at h
    · simp [totalDonationOf, mapLookup_processSibling_self, hl,
        total_updateStudentForDonation]
  · rw [if_neg (fun h' : x = sib => hxy h'.symm), add_zero]
    simp [totalDonationOf, mapLookup_processSibling_ne tn sh m sib x hxy]

theorem totalDonationOf_foldl_count (tn : String) (sh : ℚ) (x : String) :
    ∀ (l : List String) (m : AllStudents), (mapLookup m x).isSome →
      totalDonationOf (l.foldl (processSibling tn sh) m) x =
        totalDonationOf m x + (l.count x : ℚ) * sh := by
  intro l
  induction l with
  | nil => intro m _; simp
  | cons y ys ih =>
    intro m hm
    rw [List.foldl_cons, ih _ (isSome_processSibling tn sh m y x hm),
      totalDonationOf_processSibling tn sh m y x hm, List.count_cons]
    by_cases hxy : x = y
    · rw [if_pos hxy]
      simp only [beq_iff_eq]
      rw [if_pos hxy.symm]
      push_cast; ring
    · rw [if_neg hxy]
      simp only [beq_iff_eq]
      rw [if_neg (fun h => hxy h.symm)]
      push_cast; ring

theorem sum_map_const_rat {α : Type} (l : List α) (c : ℚ) :
    (l.map (fun _ => c)).sum = (l.length : ℚ) * c := by
  induction l with
  | nil => simp
  | cons x xs ih =>
    simp [ih]
    ring

/-! ### C2: equal split across beneficiaries -/

/-- C2: for a transaction whose beneficiary list holds `k` distinct non-empty
student names all present in the roster, `k` lies in `{1, 2, 3}`, processing
the transaction increases each beneficiary's `TotalDonationAmount` by exactly
`A / k` where `A` is the parsed amount, and the increases sum to `A` (exactly,
in the rational model of the float arithmetic). -/
theorem equal_split_invariant (m : AllStudents) (txn : DonationTransation)
    (hnd : (validSiblings txn).Nodup)
    (hne : validSiblings txn ≠ [])
    (hpres : ∀ n ∈ validSiblings txn, (mapLookup m n).isSome) :
    (1 ≤ (validSiblings txn).length ∧ (validSiblings txn).length ≤ 3) ∧
    (∀ n ∈ validSiblings txn,
      totalDonationOf (processTransaction m txn) n =
        totalDonationOf m n +
          parseDollarAmount txn.Amount / ((validSiblings txn).length : ℚ)) ∧
    ((validSiblings txn).map
        (fun n => totalDonationOf (processTransaction m txn) n - totalDonationOf m n)).sum =
      parseDollarAmount txn.Amount := by
  have hlen3 : (validSiblings txn).length ≤ 3 := by
    have := List.length_filter_le (fun s => s ≠ "")
      [txn.FirstStudentName, txn.SecondStudentName, txn.ThirdStudentName]
    simpa [validSiblings] using this
  have hlen1 : 1 ≤ (validSiblings txn).length := by
    have := List.length_pos.mpr hne
    omega
  have hk0 : ((validSiblings txn).length : ℚ) ≠ 0 := Nat.cast_ne_zero.mpr (by omega)
  have hproc : processTransaction m txn =
      (validSiblings txn).foldl
        (processSibling txn.Name
          (parseDollarAmount txn.Amount / ((validSiblings txn).length : ℚ))) m := by
    simp only [processTransaction]
    rw [if_neg (by omega)]
  have hper : ∀ n ∈ validSiblings txn,
      totalDonationOf (processTransaction m txn) n =
        totalDonationOf m n +
          parseDollarAmount txn.Amount / ((validSiblings txn).length : ℚ) := by
    intro n hn
    rw [hproc, totalDonationOf_foldl_count _ _ _ _ _ (hpres n hn),
      List.count_eq_one_of_mem hnd hn]
    push_cast
    ring
  refine ⟨⟨hlen1, hlen3⟩, hper, ?_⟩
  have hmap : (validSiblings txn).map
      (fun n => totalDonationOf (processTransaction m txn) n - totalDonationOf m n) =
      (validSiblings txn).map
        (fun _ => parseDollarAmount txn.Amount / ((validSiblings txn).length : ℚ)) := by
    refine List.map_congr_left (fun n hn => ?_)
    rw [hper n hn]
    ring
  rw [hmap, sum_map_const_rat, mul_div_cancel₀ _ hk0]

/-- Concrete roster for the C2 witness: Alice and Bob, freshly built. -/
def c2Roster : AllStudents :=
  [("Alice", { Name := "Alice" }), ("Bob", { Name := "Bob" })]

/-- Concrete transaction for the C2 witness: the spec's end-to-end scenario,
`$20.00` from Mom split across Alice and Bob. -/
def c2Txn : DonationTransation :=
  { Name := "Mom", Amount := "$20.00", FirstStudentName := "Alice", SecondStudentName := "Bob" }

/-- Witness for C2 at the spec's end-to-end scenario. -/
theorem equal_split_invariant_witness :
    (1 ≤ (validSiblings c2Txn).length ∧ (validSiblings c2Txn).length ≤ 3) ∧
    (∀ n ∈ validSiblings c2Txn,
      totalDonationOf (processTransaction c2Roster c2Txn) n =
        totalDonationOf c2Roster n +
          parseDollarAmount c2Txn.Amount / ((validSiblings c2Txn).length : ℚ)) ∧
    ((validSiblings c2Txn).map
        (fun n => totalDonationOf (processTransaction c2Roster c2Txn) n -
          totalDonationOf c2Roster n)).sum =
      parseDollarAmount c2Txn.Amount :=
  equal_split_invariant c2Roster c2Txn (by decide) (by decide) (by decide)

/-! ### C10: duplicate beneficiary names are not deduplicated -/

/-- C10: `assignDonationsToStudents` does not deduplicate beneficiary names:
a roster student named `m` times in a transaction's beneficiary list has its
`TotalDonationAmount` increased by `m · (A / k)`, where `k` is the beneficiary
count — once per occurrence, not once per distinct name. -/
theorem duplicate_beneficiaries_add_repeatedly (m : AllStudents)
    (txn : DonationTransation) (x : String) (hx : (mapLookup m x).isSome) :
    totalDonationOf (processTransaction m txn) x =
      totalDonationOf m x + ((validSiblings txn).count x : ℚ) *
        (parseDollarAmount txn.Amount / ((validSiblings txn).length : ℚ)) := by
  by_cases h0 : (validSiblings txn).length = 0
  · have hvs : validSiblings txn = [] := List.length_eq_zero.mp h0
    simp [processTransaction, hvs]
  · simp only [processTransaction]
    rw [if_neg h0, totalDonationOf_foldl_count _ _ _ _ _ hx]

/-- Concrete roster for the C10 witness. -/
def c10Roster : AllStudents :=
  [("Bob", { Name := "Bob" })]

/-- Concrete transaction for the C10 witness: `$30.00` naming Bob twice, so
Bob's total rises by `2 · (30 / 2) = 30`. -/
def c10Txn : DonationTransation :=
  { Name := "Uncle", Amount := "$30.00", FirstStudentName := "Bob", SecondStudentName := "Bob" }

/-- Witness for C10: Bob is named twice, is processed twice, and his total
increases by both half-shares. -/
theorem duplicate_beneficiaries_add_repeatedly_witness :
    totalDonationOf (processTransaction c10Roster c10Txn) "Bob" =
      totalDonationOf c10Roster "Bob" + ((validSiblings c10Txn).count "Bob" : ℚ) *
        (parseDollarAmount c10Txn.Amount / ((validSiblings c10Txn).length : ℚ)) :=
  duplicate_beneficiaries_add_repeatedly c10Roster c10Txn "Bob" (by decide)

/-! ### C5: a fourth distinct donor adds to the total but occupies no slot -/

/-- C5: for a beneficiary student whose three donor slots are all filled by
donors other than the transaction's donor name `d`, the per-beneficiary
update still adds the share to `TotalDonationAmount` while leaving all three
donor-name slots and all three donor-amount slots unchanged, and `d` appears
in no slot afterwards. -/
theorem fourth_donor_overflow (st : Student) (d : String) (sh : ℚ)
    (h₁ : st.PrimaryDonor1 ≠ "") (h₂ : st.PrimaryDonor2 ≠ "") (h₃ : st.PrimaryDonor3 ≠ "")
    (hd₁ : st.PrimaryDonor1 ≠ d) (hd₂ : st.PrimaryDonor2 ≠ d) (hd₃ : st.PrimaryDonor3 ≠ d) :
    (updateStudentForDonation d sh st).TotalDonationAmount = st.TotalDonationAmount + sh ∧
    (updateStudentForDonation d sh st).PrimaryDonor1 = st.PrimaryDonor1 ∧
    (updateStudentForDonation d sh st).PrimaryDonor2 = st.PrimaryDonor2 ∧
    (updateStudentForDonation d sh st).PrimaryDonor3 = st.PrimaryDonor3 ∧
    (updateStudentForDonation d sh st).PrimaryDonor1DonationAmount =
      st.PrimaryDonor1DonationAmount ∧
    (updateStudentForDonation d sh st).PrimaryDonor2DonationAmount =
      st.PrimaryDonor2DonationAmount ∧
    (updateStudentForDonation d sh st).PrimaryDonor3DonationAmount =
      st.PrimaryDonor3DonationAmount ∧
    (updateStudentForDonation d sh st).PrimaryDonor1 ≠ d ∧
    (updateStudentForDonation d sh st).PrimaryDonor2 ≠ d ∧
    (updateStudentForDonation d sh st).PrimaryDonor3 ≠ d := by
  simp [updateStudentForDonation, updateDonorSlots, recountPrimaryDonors,
    hd₁, hd₂, hd₃, h₁, h₂, h₃]

/-- Witness for C5: a student with three filled donor slots receiving a
donation from a fourth, distinct donor. -/
theorem fourth_donor_overflow_witness :
    (updateStudentForDonation "Dana" 5
        { PrimaryDonor1 := "Ann", PrimaryDonor2 := "Ben", PrimaryDonor3 := "Cat",
          TotalDonationAmount := 30 }).TotalDonationAmount = 30 + 5 ∧
    (updateStudentForDonation "Dana" 5
        { PrimaryDonor1 := "Ann", PrimaryDonor2 := "Ben", PrimaryDonor3 := "Cat",
          TotalDonationAmount := 30 }).PrimaryDonor1 = "Ann" ∧
    (updateStudentForDonation "Dana" 5
        { PrimaryDonor1 := "Ann", PrimaryDonor2 := "Ben", PrimaryDonor3 := "Cat",
          TotalDonationAmount := 30 }).PrimaryDonor2 = "Ben" ∧
    (updateStudentForDonation "Dana" 5
        { PrimaryDonor1 := "Ann", PrimaryDonor2 := "Ben", PrimaryDonor3 := "Cat",
          TotalDonationAmount := 30 }).PrimaryDonor3 = "Cat" ∧
    (updateStudentForDonation "Dana" 5
        { PrimaryDonor1 := "Ann", PrimaryDonor2 := "Ben", PrimaryDonor3 := "Cat",
          TotalDonationAmount := 30 }).PrimaryDonor1DonationAmount = 0 ∧
    (updateStudentForDonation "Dana" 5
        { PrimaryDonor1 := "Ann", PrimaryDonor2 := "Ben", PrimaryDonor3 := "Cat",
          TotalDonationAmount := 30 }).PrimaryDonor2DonationAmount = 0 ∧
    (updateStudentForDonation "Dana" 5
        { PrimaryDonor1 := "Ann", PrimaryDonor2 := "Ben", PrimaryDonor3 := "Cat",
          TotalDonationAmount := 30 }).PrimaryDonor3DonationAmount = 0 ∧
    (updateStudentForDonation "Dana" 5
        { PrimaryDonor1 := "Ann", PrimaryDonor2 := "Ben", PrimaryDonor3 := "Cat",
          TotalDonationAmount := 30 }).PrimaryDonor1 ≠ "Dana" ∧
    (updateStudentForDonation "Dana" 5
        { PrimaryDonor1 := "Ann", PrimaryDonor2 := "Ben", PrimaryDonor3 := "Cat",
          TotalDonationAmount := 30 }).PrimaryDonor2 ≠ "Dana" ∧
    (updateStudentForDonation "Dana" 5
        { PrimaryDonor1 := "Ann", PrimaryDonor2 := "Ben", PrimaryDonor3 := "Cat",
          TotalDonationAmount := 30 }).PrimaryDonor3 ≠ "Dana" :=
  fourth_donor_overflow
    { PrimaryDonor1 := "Ann", PrimaryDonor2 := "Ben", PrimaryDonor3 := "Cat",
      TotalDonationAmount := 30 } "Dana" 5
    (by decide) (by decide) (by decide) (by decide) (by decide) (by decide)

/-! ### C3: caregiver slots fill in order, fourth caregiver dropped -/

/-- C3: starting from a student with no caregivers, the Nth caregiver added
via `addParent` (N ≤ 3) lands in caregiver slot N, and adding a 4th caregiver
leaves the `Student` record entirely unchanged. -/
theorem addParent_fills_slots_in_order (s : Student) (p₁ p₂ p₃ p₄ : String)
    (h₁ : s.Parent1 = "") (h₂ : s.Parent2 = "") (h₃ : s.Parent3 = "")
    (hp₁ : p₁ ≠ "") (hp₂ : p₂ ≠ "") (hp₃ : p₃ ≠ "") :
    (addParent s p₁).Parent1 = p₁ ∧ (addParent s p₁).Parent2 = "" ∧
      (addParent s p₁).Parent3 = "" ∧
    (addParent (addParent s p₁) p₂).Parent1 = p₁ ∧
      (addParent (addParent s p₁) p₂).Parent2 = p₂ ∧
      (addParent (addParent s p₁) p₂).Parent3 = "" ∧
    (addParent (addParent (addParent s p₁) p₂) p₃).Parent1 = p₁ ∧
      (addParent (addParent (addParent s p₁) p₂) p₃).Parent2 = p₂ ∧
      (addParent (addParent (addParent s p₁) p₂) p₃).Parent3 = p₃ ∧
    addParent (addParent (addParent (addParent s p₁) p₂) p₃) p₄ =
      addParent (addParent (addParent s p₁) p₂) p₃ := by
  simp [addParent, h₁, h₂, h₃, hp₁, hp₂, hp₃]

/-- Witness for C3: the concrete scenario of the repository's `TestAddParent`
table, driven through the theorem. -/
theorem addParent_fills_slots_in_order_witness :
    (addParent { } "Parent1").Parent1 = "Parent1" ∧
      (addParent { } "Parent1").Parent2 = "" ∧
      (addParent { } "Parent1").Parent3 = "" ∧
    (addParent (addParent { } "Parent1") "Parent2").Parent1 = "Parent1" ∧
      (addParent (addParent { } "Parent1") "Parent2").Parent2 = "Parent2" ∧
      (addParent (addParent { } "Parent1") "Parent2").Parent3 = "" ∧
    (addParent (addParent (addParent { } "Parent1") "Parent2") "Parent3").Parent1 = "Parent1" ∧
      (addParent (addParent (addParent { } "Parent1") "Parent2") "Parent3").Parent2 = "Parent2" ∧
      (addParent (addParent (addParent { } "Parent1") "Parent2") "Parent3").Parent3 = "Parent3" ∧
    addParent (addParent (addParent (addParent { } "Parent1") "Parent2") "Parent3") "Parent4" =
      addParent (addParent (addParent { } "Parent1") "Parent2") "Parent3" :=
  addParent_fills_slots_in_order { } "Parent1" "Parent2" "Parent3" "Parent4"
    rfl rfl rfl (by decide) (by decide) (by decide)

/-! ### Roster-wide invariant machinery -/

/-- Predicate `P` holds for every student reachable in the roster map. -/
def rosterSatisfies (P : Student → Prop) (m : AllStudents) : Prop :=
  ∀ k s, mapLookup m k = some s → P s

theorem rosterSatisfies_mapStore (P : Student → Prop) (m : AllStudents)
    (k : String) (v : Student) (hm : rosterSatisfies P m) (hv : P v) :
    rosterSatisfies P (mapStore m k v) := by
  intro k₁ s hs
  by_cases hk : k = k₁
  · subst hk
    rw [mapLookup_mapStore_self] at hs
    cases hs
    exact hv
  · rw [mapLookup_mapStore_ne _ _ _ _ hk] at hs
    exact hm k₁ s hs

/-- The state `getParents` seeds every child row with: donor slots empty,
donor amounts and total zero, donor count zero. -/
def freshDonorState (s : Student) : Prop :=
  s.PrimaryDonor1 = "" ∧ s.PrimaryDonor2 = "" ∧ s.PrimaryDonor3 = "" ∧
  s.PrimaryDonorsPerStudent = 0 ∧
  s.PrimaryDonor1DonationAmount = 0 ∧ s.PrimaryDonor2DonationAmount = 0 ∧
  s.PrimaryDonor3DonationAmount = 0 ∧ s.TotalDonationAmount = 0

instance (s : Student) : Decidable (freshDonorState s) := by
  unfold freshDonorState; infer_instance

theorem donorFields_addParent (s : Student) (p : String) :
    (addParent s p).PrimaryDonor1 = s.PrimaryDonor1 ∧
    (addParent s p).PrimaryDonor2 = s.PrimaryDonor2 ∧
    (addParent s p).PrimaryDonor3 = s.PrimaryDonor3 ∧
    (addParent s p).PrimaryDonorsPerStudent = s.PrimaryDonorsPerStudent ∧
    (addParent s p).PrimaryDonor1DonationAmount = s.PrimaryDonor1DonationAmount ∧
    (addParent s p).PrimaryDonor2DonationAmount = s.PrimaryDonor2DonationAmount ∧
    (addParent s p).PrimaryDonor3DonationAmount = s.PrimaryDonor3DonationAmount ∧
    (addParent s p).TotalDonationAmount = s.TotalDonationAmount := by
  unfold addParent
  split_ifs <;> simp

/-- A student predicate that reads only the eight donor-side fields. -/
def DonorFieldPredicate (P : Student → Prop) : Prop :=
  ∀ s₁ s₂ : Student,
    s₁.PrimaryDonor1 = s₂.PrimaryDonor1 → s₁.PrimaryDonor2 = s₂.PrimaryDonor2 →
    s₁.PrimaryDonor3 = s₂.PrimaryDonor3 →
    s₁.PrimaryDonorsPerStudent = s₂.PrimaryDonorsPerStudent →
    s₁.PrimaryDonor1DonationAmount = s₂.PrimaryDonor1DonationAmount →
    s₁.PrimaryDonor2DonationAmount = s₂.PrimaryDonor2DonationAmount →
    s₁.PrimaryDonor3DonationAmount = s₂.PrimaryDonor3DonationAmount →
    s₁.TotalDonationAmount = s₂.TotalDonationAmount → (P s₂ → P s₁)

theorem addParent_preserves (P : Student → Prop) (hP : DonorFieldPredicate P)
    (s : Student) (p : String) (hs : P s) : P (addParent s p) := by
  obtain ⟨e₁, e₂, e₃, e₄, e₅, e₆, e₇, e₈⟩ := donorFields_addParent s p
  exact hP _ _ e₁ e₂ e₃ e₄ e₅ e₆ e₇ e₈ hs

theorem addChildRow_satisfies (P : Student → Prop) (hP : DonorFieldPredicate P)
    (pname : String) (m : AllStudents) (child : Student)
    (hm : rosterSatisfies P m) (hc : P child) :
    rosterSatisfies P (addChildRow pname m child) := by
  unfold addChildRow
  cases hl : mapLookup m child.Name
  · exact rosterSatisfies_mapStore P m _ _ hm (addParent_preserves P hP child pname hc)
  · exact rosterSatisfies_mapStore P m _ _ hm
      (addParent_preserves P hP _ pname (hm child.Name _ hl))

theorem addParentRow_satisfies (P : Student → Prop) (hP : DonorFieldPredicate P)
    (parent : Parent) :
    ∀ (cs : List Student) (m : AllStudents), rosterSatisfies P m → (∀ c ∈ cs, P c) →
      rosterSatisfies P (cs.foldl (addChildRow parent.Name) m) := by
  intro cs
  induction cs with
  | nil => intro m hm _; exact hm
  | cons c cs ih =>
    intro m hm hc
    rw [List.foldl_cons]
    exact ih _ (addChildRow_satisfies P hP parent.Name m c hm (hc c (by simp)))
      (fun c' hc' => hc c' (by simp [hc']))

theorem makeStudentRows_satisfies (P : Student → Prop) (hP : DonorFieldPredicate P) :
    ∀ (parents : List Parent) (m : AllStudents), rosterSatisfies P m →
      (∀ p ∈ parents, ∀ c ∈ p.Children, P c) →
      rosterSatisfies P (parents.foldl addParentRow m) := by
  intro parents
  induction parents with
  | nil => intro m hm _; exact hm
  | cons p ps ih =>
    intro m hm hc
    rw [List.foldl_cons]
    exact ih _ (addParentRow_satisfies P hP p p.Children m hm (hc p (by simp)))
      (fun p' hp' c hc' => hc p' (by simp [hp']) c hc')

theorem rosterSatisfies_processSibling (P : Student → Prop) (tn : String) (sh : ℚ)
    (m : AllStudents) (sib : String) (hm : rosterSatisfies P m)
    (hup : ∀ s, P s → P (updateStudentForDonation tn sh s)) :
    rosterSatisfies P (processSibling tn sh m sib) := by
  cases hl : mapLookup m sib
  · simpa [processSibling, hl] using hm
  · simp only [processSibling, hl]
    exact rosterSatisfies_mapStore P m _ _ hm (hup _ (hm sib _ hl))

theorem rosterSatisfies_foldl_processSibling (P : Student → Prop) (tn : String) (sh : ℚ)
    (hup : ∀ s, P s → P (updateStudentForDonation tn sh s)) :
    ∀ (l : List String) (m : AllStudents), rosterSatisfies P m →
      rosterSatisfies P (l.foldl (processSibling tn sh) m) := by
  intro l
  induction l with
  | nil => intro m hm; exact hm
  | cons y ys ih =>
    intro m hm
    rw [List.foldl_cons]
    exact ih _ (rosterSatisfies_processSibling P tn sh m y hm hup)

theorem rosterSatisfies_processTransaction (P : Student → Prop) (m : AllStudents)
    (txn : DonationTransation) (hm : rosterSatisfies P m)
    (hup : ∀ sh s, P s → P (updateStudentForDonation txn.Name sh s)) :
    rosterSatisfies P (processTransaction m txn) := by
  by_cases h0 : (validSiblings txn).length = 0
  · simpa [processTransaction, h0] using hm
  · simp only [processTransaction]
    rw [if_neg h0]
    exact rosterSatisfies_foldl_processSibling P txn.Name _ (hup _) _ m hm

theorem rosterSatisfies_assignDonationsToStudents (P : Student → Prop) :
    ∀ (txns : List DonationTransation) (m : AllStudents), rosterSatisfies P m →
      (∀ t ∈ txns, ∀ sh s, P s → P (updateStudentForDonation t.Name sh s)) →
      rosterSatisfies P (assignDonationsToStudents m txns) := by
  intro txns
  induction txns with
  | nil => intro m hm _; exact hm
  | cons t ts ih =>
    intro m hm hup
    rw [assignDonationsToStudents, List.foldl_cons]
    exact ih _ (rosterSatisfies_processTransaction P m t hm (hup t (by simp)))
      (fun t' ht' => hup t' (by simp [ht']))

theorem rosterSatisfies_empty (P : Student → Prop) : rosterSatisfies P [] := by
  intro k s hs
  simp [mapLookup] at hs

/-! ### C6: the donor count always equals the number of filled slots -/

/-- The invariant claimed for `PrimaryDonorsPerStudent`. -/
def donorCountInvariant (s : Student) : Prop :=
  s.PrimaryDonorsPerStudent =
    (if s.PrimaryDonor1 ≠ "" then 1 else 0) + (if s.PrimaryDonor2 ≠ "" then 1 else 0) +
      (if s.PrimaryDonor3 ≠ "" then 1 else 0)

instance (s : Student) : Decidable (donorCountInvariant s) := by
  unfold donorCountInvariant; infer_instance

theorem donorCountInvariant_donorFieldPredicate : DonorFieldPredicate donorCountInvariant := by
  intro s₁ s₂ e₁ e₂ e₃ e₄ _ _ _ _ h
  unfold donorCountInvariant at h ⊢
  rw [e₁, e₂, e₃, e₄]
  exact h

/-- After the per-beneficiary update the donor count is recomputed from
scratch, so the invariant holds for the updated student unconditionally. -/
theorem donorCountInvariant_updateStudentForDonation (tn : String) (sh : ℚ) (s : Student) :
    donorCountInvariant (updateStudentForDonation tn sh s) := by
  unfold updateStudentForDonation recountPrimaryDonors donorCountInvariant
  split_ifs <;> simp_all

/-- C6: starting from the roster produced by `makeStudentRows` on freshly
seeded children (donor slots empty, totals zero), after
`assignDonationsToStudents` processes any sequence of transactions, every
student in the roster has `PrimaryDonorsPerStudent` equal to the number of
its non-empty donor-name slots; moreover the count is recomputed from
scratch, so the invariant holds for the outcome of a single per-beneficiary
update of an arbitrary student state. -/
theorem donor_count_matches_filled_slots (parents : List Parent)
    (txns : List DonationTransation) (d : String) (sh : ℚ) (s : Student)
    (hfresh : ∀ p ∈ parents, ∀ c ∈ p.Children, freshDonorState c) :
    rosterSatisfies donorCountInvariant
      (assignDonationsToStudents (makeStudentRows parents) txns) ∧
    donorCountInvariant (updateStudentForDonation d sh s) := by
  refine ⟨?_, donorCountInvariant_updateStudentForDonation d sh s⟩
  refine rosterSatisfies_assignDonationsToStudents _ txns _ ?_ ?_
  · refine makeStudentRows_satisfies _ donorCountInvariant_donorFieldPredicate parents []
      (rosterSatisfies_empty _) ?_
    intro p hp c hc
    obtain ⟨f₁, f₂, f₃, f₄, _⟩ := hfresh p hp c hc
    unfold donorCountInvariant
    rw [f₁, f₂, f₃, f₄]
    simp
  · intro t _ sh' s' _
    exact donorCountInvariant_updateStudentForDonation t.Name sh' s'

/-- Concrete input for the C6 witness. -/
def c6Parents : List Parent :=
  [{ Name := "Mom", Children := [{ Name := "Alice", Class := "1A" }] }]

/-- Concrete transactions for the C6 witness. -/
def c6Txns : List DonationTransation :=
  [{ Name := "Mom", Amount := "$20.00", FirstStudentName := "Alice" },
   { Name := "GrandPa", Amount := "$7.00", FirstStudentName := "Alice" }]

/-- Witness for C6 at a concrete roster and transaction list. -/
theorem donor_count_matches_filled_slots_witness :
    rosterSatisfies donorCountInvariant
      (assignDonationsToStudents (makeStudentRows c6Parents) c6Txns) ∧
    donorCountInvariant (updateStudentForDonation "Mom" 5 { Name := "Alice" }) :=
  donor_count_matches_filled_slots c6Parents c6Txns "Mom" 5 { Name := "Alice" }
    (by decide)

/-! ### C7: slots left-to-right without gaps, name and amount set together -/

/-- The slot-integrity invariant claimed by the spec: no gaps left-to-right,
and an empty-named slot carries a zero amount. -/
def slotIntegrity (s : Student) : Prop :=
  (s.PrimaryDonor2 ≠ "" → s.PrimaryDonor1 ≠ "") ∧
  (s.PrimaryDonor3 ≠ "" → s.PrimaryDonor2 ≠ "") ∧
  (s.PrimaryDonor1 = "" → s.PrimaryDonor1DonationAmount = 0) ∧
  (s.PrimaryDonor2 = "" → s.PrimaryDonor2DonationAmount = 0) ∧
  (s.PrimaryDonor3 = "" → s.PrimaryDonor3DonationAmount = 0)

instance (s : Student) : Decidable (slotIntegrity s) := by
  unfold slotIntegrity; infer_instance

/-- Concrete roster input for the C7 counterexample. -/
def c7Parents : List Parent :=
  [{ Name := "CareGiverA", Children := [{ Name := "Alice", Class := "K" }] }]

/-- The C7 counterexample transaction: its donor-name field is empty, as
nothing in `assignDonationsToStudents` forbids. -/
def c7Txn : DonationTransation :=
  { Name := "", Amount := "$10.00", FirstStudentName := "Alice" }

/-- The student record the code produces for Alice on the C7 counterexample
input: the empty donor name matches the `PrimaryDonor1 == txn.Name` case
while slot 1 is empty, so the amount lands in slot 1 with no name set. -/
def c7Bad : Student :=
  { Name := "Alice", Class := "K", Parent1 := "CareGiverA",
    PrimaryDonor1DonationAmount := 10, TotalDonationAmount := 10 }

/-- C7 counterexample: after a freshly built roster processes one transaction
whose donor-name field is empty, Alice's donor-amount slot 1 holds `10` while
her donor-name slot 1 is the empty string, violating the claimed invariant
that a slot's name and amount are always set together. -/
theorem slot_integrity_counterexample :
    mapLookup (assignDonationsToStudents (makeStudentRows c7Parents) [c7Txn]) "Alice" =
      some c7Bad ∧
    c7Bad.PrimaryDonor1 = "" ∧ c7Bad.PrimaryDonor1DonationAmount ≠ 0 := by
  refine ⟨by decide, by decide, by decide⟩

theorem slotIntegrity_updateDonorSlots (tn : String) (sh : ℚ) (s : Student)
    (htn : tn ≠ "") (hs : slotIntegrity s) :
    slotIntegrity (updateDonorSlots tn sh s) := by
  obtain ⟨g₂₁, g₃₂, z₁, z₂, z₃⟩ := hs
  unfold updateDonorSlots
  split_ifs with h₁ h₂ h₃ e₁ e₂ e₃
  · exact ⟨g₂₁, g₃₂, fun h => absurd (h₁.symm.trans h) htn, z₂, z₃⟩
  · exact ⟨g₂₁, g₃₂, z₁, fun h => absurd (h₂.symm.trans h) htn, z₃⟩
  · exact ⟨g₂₁, g₃₂, z₁, z₂, fun h => absurd (h₃.symm.trans h) htn⟩
  · exact ⟨fun _ => htn, g₃₂, fun h => absurd h htn, z₂, z₃⟩
  · exact ⟨fun _ => e₁, fun _ => htn, z₁, fun h => absurd h htn, z₃⟩
  · exact ⟨g₂₁, fun _ => e₂, z₁, z₂, fun h => absurd h htn⟩
  · exact ⟨g₂₁, g₃₂, z₁, z₂, z₃⟩

theorem slotIntegrity_updateStudentForDonation (tn : String) (sh : ℚ) (s : Student)
    (htn : tn ≠ "") (hs : slotIntegrity s) :
    slotIntegrity (updateStudentForDonation tn sh s) := by
  unfold updateStudentForDonation
  exact slotIntegrity_updateDonorSlots tn sh _ htn hs

theorem slotIntegrity_donorFieldPredicate : DonorFieldPredicate slotIntegrity := by
  intro s₁ s₂ e₁ e₂ e₃ _ e₅ e₆ e₇ _ h
  unfold slotIntegrity at h ⊢
  rw [e₁, e₂, e₃, e₅, e₆, e₇]
  exact h

/-- C7 amended: the claimed invariant — donor slots filled left-to-right with
no gaps, and no donor-amount slot nonzero while its donor-name slot is empty
— holds after any sequence of transactions **whose donor-name fields are
non-empty**; the unrestricted claim fails on an empty donor name (see the
counterexample). -/
theorem slot_integrity_amended (parents : List Parent)
    (txns : List DonationTransation)
    (hfresh : ∀ p ∈ parents, ∀ c ∈ p.Children, freshDonorState c)
    (hdonors : ∀ t ∈ txns, t.Name ≠ "") :
    rosterSatisfies slotIntegrity
      (assignDonationsToStudents (makeStudentRows parents) txns) := by
  refine rosterSatisfies_assignDonationsToStudents _ txns _ ?_ ?_
  · refine makeStudentRows_satisfies _ slotIntegrity_donorFieldPredicate parents []
      (rosterSatisfies_empty _) ?_
    intro p hp c hc
    obtain ⟨f₁, f₂, f₃, _, f₅, f₆, f₇, _⟩ := hfresh p hp c hc
    unfold slotIntegrity
    rw [f₁, f₂, f₃, f₅, f₆, f₇]
    simp
  · intro t ht sh' s' hs'
    exact slotIntegrity_updateStudentForDonation t.Name sh' s' (hdonors t ht) hs'

/-- Witness for the amended C7 at a concrete roster and transaction list with
named donors. -/
theorem slot_integrity_amended_witness :
    rosterSatisfies slotIntegrity
      (assignDonationsToStudents (makeStudentRows c7Parents)
        [{ Name := "Mom", Amount := "$20.00", FirstStudentName := "Alice" }]) :=
  slot_integrity_amended c7Parents
    [{ Name := "Mom", Amount := "$20.00", FirstStudentName := "Alice" }]
    (by decide) (by decide)

/-! ### C8: transactions with no beneficiary are routed, not attributed -/

/-- C8: a transaction whose three student-name fields are all empty performs
no roster mutation, and a data row (index at least 2) whose three
student-name columns are all empty yields, in the output of
`readTransactionsByNonCareGivers`, a transaction preserving its date, donor
name, space-stripped amount and account number. -/
theorem unattributed_donation_routing (m : AllStudents) (txn : DonationTransation)
    (rows : List (List String)) (i : ℕ) (r : List String)
    (h₁ : txn.FirstStudentName = "") (h₂ : txn.SecondStudentName = "")
    (h₃ : txn.ThirdStudentName = "")
    (hmem : (i, r) ∈ rows.enum) (hi : 2 ≤ i)
    (hr₆ : r.getD 6 "" = "") (hr₈ : r.getD 8 "" = "") (hr₁₀ : r.getD 10 "" = "") :
    processTransaction m txn = m ∧
    ({ Date := r.getD 0 "", Name := r.getD 1 "", Amount := removeSpaces (r.getD 2 ""),
        AccountNumber := r.getD 12 "" } : DonationTransation) ∈
      readTransactionsByNonCareGivers rows := by
  constructor
  · simp [processTransaction, validSiblings, h₁, h₂, h₃]
  · rw [readTransactionsByNonCareGivers, List.mem_filterMap]
    refine ⟨(i, r), hmem, ?_⟩
    rw [if_neg (by omega), if_neg (fun h => h hr₆), if_neg (fun h => h hr₈),
      if_neg (fun h => h hr₁₀)]

/-- Concrete spreadsheet rows for the C8 witness: a header row, a totals row,
and one data row with no student names. -/
def c8Rows : List (List String) :=
  [["Date", "Name", "Amount", "", "", "", "S1", "C1", "S2", "C2", "S3", "C3", "Acct"],
   ["", "", "$99.00", "", "", "", "", "", "", "", "", "", ""],
   ["1/2/2024", "Friend", "$5.00", "", "", "", "", "", "", "", "", "", "A-17"]]

/-- The all-empty-beneficiary transaction for the C8 witness. -/
def c8Txn : DonationTransation :=
  { Name := "Friend", Amount := "$5.00" }

/-- Witness for C8 at a concrete roster, transaction and row list. -/
theorem unattributed_donation_routing_witness :
    processTransaction [("Alice", { Name := "Alice" })] c8Txn =
      [("Alice", { Name := "Alice" })] ∧
    ({ Date := "1/2/2024", Name := "Friend", Amount := removeSpaces "$5.00",
        AccountNumber := "A-17" } : DonationTransation) ∈
      readTransactionsByNonCareGivers c8Rows := by
  have h := unattributed_donation_routing [("Alice", { Name := "Alice" })] c8Txn
    c8Rows 2 ["1/2/2024", "Friend", "$5.00", "", "", "", "", "", "", "", "", "", "A-17"]
    rfl rfl rfl (by decide) (by decide) rfl rfl rfl
  exact h

/-! ### C9: unknown students are skipped without touching the roster -/

theorem mapKeys_foldl_processSibling (tn : String) (sh : ℚ) :
    ∀ (l : List String) (m : AllStudents),
      mapKeys (l.foldl (processSibling tn sh) m) = mapKeys m := by
  intro l
  induction l with
  | nil => intro m; rfl
  | cons y ys ih =>
    intro m
    rw [List.foldl_cons, ih, mapKeys_processSibling]

theorem mapKeys_processTransaction (m : AllStudents) (txn : DonationTransation) :
    mapKeys (processTransaction m txn) = mapKeys m := by
  by_cases h0 : (validSiblings txn).length = 0
  · simp [processTransaction, h0]
  · simp only [processTransaction]
    rw [if_neg h0, mapKeys_foldl_processSibling]

theorem mapKeys_foldl_processTransaction :
    ∀ (txns : List DonationTransation) (m : AllStudents),
      mapKeys (txns.foldl processTransaction m) = mapKeys m := by
  intro txns
  induction txns with
  | nil => intro m; rfl
  | cons t ts ih =>
    intro m
    rw [List.foldl_cons, ih, mapKeys_processTransaction]

theorem isSome_processSibling_iff (tn : String) (sh : ℚ) (m : AllStudents)
    (sib x : String) :
    (mapLookup (processSibling tn sh m sib) x).isSome = (mapLookup m x).isSome := by
  by_cases hxy : sib = x
  · subst hxy
    rw [mapLookup_processSibling_self]
    cases mapLookup m sib <;> simp
  · rw [mapLookup_processSibling_ne _ _ _ _ _ hxy]

theorem processSibling_absent (tn : String) (sh : ℚ) (m : AllStudents) (sib : String)
    (h : mapLookup m sib = none) : processSibling tn sh m sib = m := by
  simp [processSibling, h]

theorem foldl_processSibling_filter_present (tn : String) (sh : ℚ) :
    ∀ (l : List String) (m : AllStudents),
      l.foldl (processSibling tn sh) m =
        (l.filter (fun n => (mapLookup m n).isSome)).foldl (processSibling tn sh) m := by
  intro l
  induction l with
  | nil => intro m; rfl
  | cons y ys ih =>
    intro m
    by_cases hy : (mapLookup m y).isSome
    · rw [List.foldl_cons, List.filter_cons_of_pos (by simpa using hy), List.foldl_cons,
        ih (processSibling tn sh m y)]
      congr 1
      exact List.filter_congr
        (fun n _ => by rw [isSome_processSibling_iff])
    · rw [List.foldl_cons,
        processSibling_absent tn sh m y (Option.not_isSome_iff_eq_none.mp hy),
        List.filter_cons_of_neg (by simpa using hy)]
      exact ih m

/-- C9: `assignDonationsToStudents` never changes the roster's key set (so an
unknown beneficiary never creates a placeholder entry), and the sibling loop
behaves exactly as the same loop run over only the beneficiaries present in
the roster — absent names are skipped while the remaining beneficiaries are
processed normally, with the share unchanged. -/
theorem unknown_student_skip (m : AllStudents) (txns : List DonationTransation)
    (tn : String) (sh : ℚ) (l : List String) :
    mapKeys (assignDonationsToStudents m txns) = mapKeys m ∧
    l.foldl (processSibling tn sh) m =
      (l.filter (fun n => (mapLookup m n).isSome)).foldl (processSibling tn sh) m := by
  exact ⟨mapKeys_foldl_processTransaction txns m,
    foldl_processSibling_filter_present tn sh l m⟩

/-! ### C4: dollar-amount parsing -/

/-- C4 counterexample: the claim says `"$1,234.56"` parses to `1234.56`, but
`parseDollarAmount` only trims the `$` and `strconv.ParseFloat` rejects the
comma, so the result is the error fallback `0`, not `1234.56`. -/
theorem parseDollarAmount_comma_counterexample :
    parseDollarAmount "$1,234.56" ≠ 1234.56 ∧ parseDollarAmount "$1,234.56" = 0 := by
  refine ⟨by decide, by decide⟩

/-- C4 amended: `parseDollarAmount` maps `"$10.00"`-style strings to `10.00`
and comma-free `"$1234.56"`-style strings to `1234.56`; a comma-grouped
string such as `"$1,234.56"` is unparseable exactly like `"N/A"`, and every
unparseable string yields `0` with the run continuing (the function is total
and returns the zero fallback instead of aborting). -/
theorem parseDollarAmount_amended :
    parseDollarAmount "$10.00" = 10 ∧
    parseDollarAmount "$1234.56" = 1234.56 ∧
    parseDollarAmount "$1,234.56" = 0 ∧
    parseDollarAmount "N/A" = 0 := by
  refine ⟨by decide, by decide, by decide, by decide⟩

end Datacor
